import Mathlib

/-
Verification of the CraneSched per-node agent (Craned) against its
natural-language specification.  The definitions below are shallow
embeddings of functions in
  src/Craned/Craned/CgroupManager.cpp
  src/Craned/Craned/JobManager.cpp
  src/Craned/Supervisor/CforedClient.cpp
Machine integers are modelled as Nat/Int, C++ doubles as rationals at
inputs where the double computation is exact, strings as Lean String or
List Char, and the surviving-job hash sets as lists.
-/

namespace Crane

/-- Error kinds used by the agent (CraneErr in the source). Only the
constructors relevant to the verified claims are modelled. -/
inductive CraneErr where
  | kOk
  | kCgroupError
  | kProtobufError
  | kSystemErr
  | kGenericFailure
  | kNonExistent
  deriving DecidableEq, Repr

/-- Task status kinds reported to the controller (crane::grpc::TaskStatus). -/
inductive TaskStatus where
  | Pending
  | Running
  | Completed
  | Failed
  | Cancelled
  | ExceedTimeLimit
  deriving DecidableEq, Repr

/-! ## Recovery scan (CgroupManager.cpp)

`CgroupStrByTaskId_` formats a job cgroup directory name as
`Crane_Task_<id>`; the two scan functions match directory names against
the pattern `Crane_Task_(\d+)` and decide removal against the set of
surviving job ids. -/

/-- Decimal value of a digit string, as `std::stoul` computes it. -/
def digitsToNat (ds : List Char) : Nat :=
  ds.foldl (fun a c => 10 * a + (c.toNat - '0'.toNat)) 0

/-- Full match of a directory name against the regex `Crane_Task_(\d+)`
(`cg_pattern` in CgroupManager.cpp): returns the captured id when the
name is the literal prefix followed by one or more digits. -/
def parseCraneTaskId (name : List Char) : Option Nat :=
  let pre := "Crane_Task_".data
  if pre.isPrefixOf name then
    let rest := name.drop pre.length
    if rest ≠ [] ∧ rest.all Char.isDigit then some (digitsToNat rest) else none
  else none

/-- CgroupManager::RmJobCgroupsUnderControllerExcept_ (legacy / v1 scan):
walks the depth-1 entries under one controller root; an entry whose name
fully matches `Crane_Task_(\d+)` is skipped when its id is contained in
`taskIds` and removed (rmdir) otherwise.  Returns the list of directory
names the scan removes. -/
def rmJobCgroupsUnderControllerExcept (taskIds : List Nat)
    (entries : List (List Char)) : List (List Char) :=
  entries.filter fun name =>
    match parseCraneTaskId name with
    | some id => decide (id ∉ taskIds)
    | none => false

/-- CgroupManager::RmCgroupsV2Except_ (unified / v2 scan): iterates over
the directories under the root cgroup path; for a name matching
`Crane_Task_(\d+)` the source executes
  `if (!job_ids.contains(job_id)) continue;`
and then removes the path, i.e. it removes the entry exactly when the id
IS contained in `jobIds`.  Returns the list of directory names removed. -/
def rmCgroupsV2Except (jobIds : List Nat)
    (entries : List (List Char)) : List (List Char) :=
  entries.filter fun name =>
    match parseCraneTaskId name with
    | some id => decide (id ∈ jobIds)
    | none => false

/-! ## CPU core limit (CgroupManager.cpp)

Both variants use the constant 1 << 16 = 65536.  The double arithmetic
`base * core_num` in the source is exact whenever `core_num` is a dyadic
rational of small height, so rationals model those inputs faithfully. -/

/-- Period written by both CgroupV1::SetCpuCoreLimit (CPU_CFS_PERIOD_US)
and CgroupV2::SetCpuCoreLimit (second field of cpu.max). -/
def cpuPeriod : Nat := 65536

/-- CgroupV1::SetCpuCoreLimit quota: `uint64_t(std::round(base * core_num))`
with `base = 1 << 16`.  `std::round` rounds half away from zero, which for
the nonnegative core counts agrees with Mathlib `round` (half up). -/
def cgroupV1CpuQuota (coreNum : ℚ) : ℤ := round ((65536 : ℚ) * coreNum)

/-- CgroupV2::SetCpuCoreLimit quota:
`static_cast<uint64_t>(period * core_num)` truncates toward zero, which
for nonnegative core counts is the floor. -/
def cgroupV2CpuQuota (coreNum : ℚ) : ℤ := ⌊(65536 : ℚ) * coreNum⌋

/-- CgroupV2::SetCpuCoreLimit writes the string
`std::to_string(quota) + " " + std::to_string(period)` to cpu.max. -/
def cgroupV2CpuMax (coreNum : ℚ) : String :=
  toString (cgroupV2CpuQuota coreNum) ++ " " ++ toString cpuPeriod

/-! ## Device allocation (CgroupManager.cpp) -/

/-- DedicatedResourceAllocator::Allocate, abstracted over the outcome of
`cg->SetDeviceAccess(...)`: when the call fails the source logs a warning
and returns true; when it succeeds the source returns true. -/
def dedicatedResourceAllocate (setDeviceAccessOk : Bool) : Bool :=
  if setDeviceAccessOk then true else true

/-- Tail of CgroupManager::AllocateAndGetJobCgroup (non-recover path),
abstracted over the two allocator outcomes:
  `bool ok = AllocatableResourceAllocator::Allocate(...);`
  `if (ok) ok &= DedicatedResourceAllocator::Allocate(...);`
  `return ok ? std::move(cg_unique_ptr) : nullptr;`
`some ()` stands for the non-null cgroup handle. -/
def allocateAndGetJobCgroupResult (allocatableOk setDeviceAccessOk : Bool) :
    Option Unit :=
  let ok := allocatableOk
  let ok := if ok then ok && dedicatedResourceAllocate setDeviceAccessOk else ok
  if ok then some () else none

/-! ## Batch output path parsing (JobManager.cpp) -/

/-- Default stdout file name `Crane-<Job ID>.out`. -/
def craneOutName (taskId : Nat) : List Char :=
  "Crane-".data ++ (toString taskId).data ++ ".out".data

/-- JobManager::ParseFilePathPattern_: an empty pattern resolves to
`<cwd>/`; a pattern starting with '/' is kept; any other pattern is
prefixed with `<cwd>/`; finally, a resolved pattern ending in '/' gets
`Crane-<Job ID>.out` appended. -/
def parseFilePathPattern (pathPattern cwd : List Char) (taskId : Nat) :
    List Char :=
  let resolved :=
    if pathPattern = [] then cwd ++ ['/']
    else if pathPattern.head? = some '/' then pathPattern
    else cwd ++ '/' :: pathPattern
  if resolved.getLast? = some '/' then resolved ++ craneOutName taskId
  else resolved

/-- Where fd 2 of a batch child points after the fd setup in
SpawnProcessInInstance_ (child branch). -/
inductive StderrSink where
  | mergedIntoStdout
  | separateFile (path : List Char)
  deriving DecidableEq, Repr

/-- Batch fd setup in SpawnProcessInInstance_ (child branch): when
`parsed_error_file_pattern` is empty, fd 2 is duplicated from the fd
opened on the stdout path (`dup2(stdout_fd, 2)`); otherwise a separate
stderr file is opened and duplicated into fd 2. -/
def batchStderrSink (parsedErrorPattern : List Char) : StderrSink :=
  if parsedErrorPattern = [] then .mergedIntoStdout
  else .separateFile parsedErrorPattern

/-- LaunchTaskInstanceMt_: the parsed stderr pattern stays empty when the
submitted `error_file_pattern` is empty; otherwise it is parsed exactly
like the stdout pattern. -/
def parsedErrorFilePattern (errPattern cwd : List Char) (taskId : Nat) :
    List Char :=
  if errPattern = [] then []
  else parseFilePathPattern errPattern cwd taskId

/-! ## Child reaping (JobManager.cpp) -/

/-- Wait status of a reaped child, as decomposed by
WIFEXITED / WEXITSTATUS / WIFSIGNALED / WTERMSIG. -/
inductive WaitStatus where
  | exited (code : Nat)
  | signaled (sig : Nat)
  deriving DecidableEq, Repr

/-- A child collected by one successful `waitpid(-1, &status, WNOHANG)`. -/
structure ReapedChild where
  pid : Nat
  status : WaitStatus
  deriving DecidableEq, Repr

/-- One element of the task-status-change queue
(TaskStatusChangeQueueElem). -/
structure StatusChangeElem where
  taskId : Nat
  status : TaskStatus
  exitCode : Nat
  deriving DecidableEq, Repr

/-- JobManager::EvSigchldCb_ per-reap processing.  The source loop body
for a reaped pid is
  `if (pid > 0) { // We do nothing now }`
so the fold ignores every reaped child: no JobInstance is located and no
status change is enqueued. -/
def evSigchldStatusChanges (reaped : List ReapedChild) :
    List StatusChangeElem :=
  reaped.foldl (fun acc _ => acc) []

/-- Modelled from the spec: the per-reap bookkeeping that
JobManager::EvSigchldCb_ is documented to perform but does not contain.
Spec §4.2 (Reaping): for each reaped process locate its JobInstance and
enqueue the terminal status — Completed on exit code 0, Failed on a
non-zero code, Failed on a signal.  `jobIdOfPid` abstracts the pid-to-job
index lookup. -/
def specReaperStatusChange (jobIdOfPid : Nat → Nat) (c : ReapedChild) :
    StatusChangeElem :=
  match c.status with
  | .exited 0 => ⟨jobIdOfPid c.pid, .Completed, 0⟩
  | .exited code => ⟨jobIdOfPid c.pid, .Failed, code⟩
  | .signaled sig => ⟨jobIdOfPid c.pid, .Failed, sig⟩

/-! ## Parent-side spawn error paths (JobManager.cpp) -/

/-- Outcomes of the fallible parent-side steps of
JobManager::SpawnProcessInInstance_ after fork succeeded:
cgroup migration (`MigrateProcIn`), serialization and flush of the
ok=true CanStart message, the read of the child's ready reply, and the
serialization of the ok=false message on the AskChildToSuicide path. -/
structure ParentStepOutcomes where
  migrateOk : Bool
  serializeOk : Bool
  flushOk : Bool
  readReadyOk : Bool
  suicideWriteOk : Bool
  deriving DecidableEq, Repr

/-- What the parent branch of SpawnProcessInInstance_ produced. -/
structure ParentResult where
  ret : CraneErr
  errBeforeExec : CraneErr
  sigkillSent : Bool
  askedChildToAbort : Bool
  deriving DecidableEq, Repr

/-- Parent branch of SpawnProcessInInstance_ after a successful fork:
on migration failure `err_before_exec = kCgroupError` and the
AskChildToSuicide path sends an ok=false message (on a failed write of
that message `err_before_exec` becomes kProtobufError and SIGKILL is
sent); on a failed serialize or flush of the ok=true message, and on a
failed read of the child's ready reply, `err_before_exec =
kProtobufError` and SIGKILL is sent.  Every one of these paths returns
kOk.  (The source's read-reply condition `!ok || !msg.ok()` reduces to
`!ok` because `msg` is the parent's own message with ok already true.) -/
def spawnParentAfterFork (o : ParentStepOutcomes) : ParentResult :=
  if o.migrateOk = false then
    if o.suicideWriteOk = false then
      { ret := .kOk, errBeforeExec := .kProtobufError,
        sigkillSent := true, askedChildToAbort := false }
    else
      { ret := .kOk, errBeforeExec := .kCgroupError,
        sigkillSent := false, askedChildToAbort := true }
  else if (o.serializeOk && o.flushOk) = false then
    { ret := .kOk, errBeforeExec := .kProtobufError,
      sigkillSent := true, askedChildToAbort := false }
  else if o.readReadyOk = false then
    { ret := .kOk, errBeforeExec := .kProtobufError,
      sigkillSent := true, askedChildToAbort := false }
  else
    { ret := .kOk, errBeforeExec := .kOk,
      sigkillSent := false, askedChildToAbort := false }

/-- Tail of LaunchTaskInstanceMt_: a Failed status change is synthesized
exactly when SpawnProcessInInstance_ returned an error other than kOk. -/
def launchSynthesizedStatus (ret : CraneErr) : Option TaskStatus :=
  if ret = CraneErr.kOk then none else some TaskStatus.Failed

/-! ## I/O forwarding stream state machine (CforedClient.cpp) -/

/-- Connection states of CforedClient::AsyncSendRecvThread_ relevant to
incoming reply frames (the registering states never reach the inspected
branches). -/
inductive IoState where
  | Forwarding
  | Unregistering
  | StreamEnd
  deriving DecidableEq, Repr

/-- Frame kinds of StreamCforedTaskIOReply as the state machine
distinguishes them. -/
inductive ReplyType where
  | taskInput
  | unregisterReply
  | registerAck
  deriving DecidableEq, Repr

/-- Effect of handling one completed Read tag: the successor state,
whether a new `stream->Read` was issued, and whether the frame's payload
was written to the children's input fds. -/
structure ReadStepResult where
  state : IoState
  readReissued : Bool
  inputsWritten : Bool
  deriving DecidableEq, Repr

/-- CforedClient::AsyncSendRecvThread_, handling of a Read completion.
Forwarding: a frame that is not SUPERVISOR_TASK_INPUT hits
`CRANE_ERROR(...); break;` — no write to the children and no new Read; a
TASK_INPUT frame is written to every child's input fd and a new Read is
issued.  Unregistering: a frame that is not SUPERVISOR_UNREGISTER_REPLY
is logged, `reply.Clear()` runs and a new Read is issued; the expected
reply moves the machine to End.  In End the loop stops. -/
def onReadEvent (s : IoState) (t : ReplyType) : ReadStepResult :=
  match s with
  | .Forwarding =>
      if t ≠ .taskInput then
        { state := .Forwarding, readReissued := false, inputsWritten := false }
      else
        { state := .Forwarding, readReissued := true, inputsWritten := true }
  | .Unregistering =>
      if t ≠ .unregisterReply then
        { state := .Unregistering, readReissued := true,
          inputsWritten := false }
      else
        { state := .StreamEnd, readReissued := false, inputsWritten := false }
  | .StreamEnd =>
      { state := .StreamEnd, readReissued := false, inputsWritten := false }

/-! ## Terminal status-change drain (JobManager.cpp)

JobManager::EvCleanTaskStatusChangeQueueCb_ drains the status-change
queue; the task map is modelled by its only consulted content, the
orphaned flag per job id. -/

/-- `m_task_map_.find(id)` restricted to the orphaned flag. -/
def lookupTask (m : List (Nat × Bool)) (id : Nat) : Option Bool :=
  (m.find? fun p => p.1 == id).map fun p => p.2

/-- `m_task_map_.erase(id)`: removes the entry for `id` (the hash map
holds at most one; the filter removes all of them, which coincides). -/
def eraseTask (m : List (Nat × Bool)) (id : Nat) : List (Nat × Bool) :=
  m.filter fun p => !(p.1 == id)

/-- What one drain of EvCleanTaskStatusChangeQueueCb_ did: the remaining
task map, the status changes forwarded to g_ctld_client in order, and
the job ids erased from the task map in order. -/
structure DrainResult where
  taskMap : List (Nat × Bool)
  delivered : List StatusChangeElem
  erased : List Nat
  deriving DecidableEq, Repr

/-- JobManager::EvCleanTaskStatusChangeQueueCb_: for each dequeued
status change, a job id absent from the task map is ignored (comment in
the source: a double TaskStatusChange might be triggered; just ignore
it); otherwise the orphaned flag is read, the instance is erased from
the task map, and the status change is forwarded to the controller
client unless the flag was set. -/
def processStatusChanges (m : List (Nat × Bool)) :
    List StatusChangeElem → DrainResult
  | [] => { taskMap := m, delivered := [], erased := [] }
  | e :: rest =>
      match lookupTask m e.taskId with
      | none => processStatusChanges m rest
      | some orphaned =>
          let r := processStatusChanges (eraseTask m e.taskId) rest
          { taskMap := r.taskMap,
            delivered :=
              if orphaned then r.delivered else e :: r.delivered,
            erased := e.taskId :: r.erased }

/-! ## Child-launch protocol (JobManager.cpp)

SpawnProcessInInstance_ is split by fork into a parent half and a child
half that exchange the CanStart and ChildProcessReady messages over a
socket pair.  Each half is embedded as the sequence of its effectful
steps, in source order. -/

/-- Steps of the two halves of SpawnProcessInInstance_. -/
inductive SpawnEvent where
  | forkEv
  | migrateProcIn
  | sendCanStart (ok : Bool)
  | recvChildReady
  | setSigabrtDefault
  | setgroupsEv
  | setresgidEv
  | setresuidEv
  | chdirEv
  | setpgidEv
  | recvCanStart (ok : Bool)
  | setupStdFds
  | sendChildReady
  | closeFdsFrom3
  | clearenvEv
  | setenvEv
  | execveEv
  | abortEv
  deriving DecidableEq, Repr

/-- Parent branch in source order: fork, cgroup migration, then — when
migration succeeded — the CanStart message with ok=true followed by the
read of the child's ready reply; when migration failed, the
AskChildToSuicide path sends CanStart with ok=false. -/
def parentTrace (migrateOk : Bool) : List SpawnEvent :=
  if migrateOk then
    [.forkEv, .migrateProcIn, .sendCanStart true, .recvChildReady]
  else
    [.forkEv, .migrateProcIn, .sendCanStart false]

/-- Child branch in source order: `signal(SIGABRT, SIG_DFL)`,
`setgroups`, `setresgid`, `setresuid`, `chdir(cwd)`, `setpgid(0, 0)`,
then the blocking read of the CanStart message; on ok=true the fd setup,
the ChildProcessReady reply, `CloseFdFrom(3)`, `clearenv`, the setenv
loop and finally `execv`; on ok=false `std::abort()`. -/
def childTrace (canStartOk : Bool) : List SpawnEvent :=
  [.setSigabrtDefault, .setgroupsEv, .setresgidEv, .setresuidEv,
    .chdirEv, .setpgidEv, .recvCanStart canStartOk] ++
  (if canStartOk then
    [.setupStdFds, .sendChildReady, .closeFdsFrom3, .clearenvEv,
      .setenvEv, .execveEv]
  else [.abortEv])

/-- One interleaving of the two halves that respects both program orders
and delivers each message after its send; used to exhibit a concrete
schedule. -/
def protocolSchedule : List SpawnEvent :=
  [.forkEv, .setSigabrtDefault, .setgroupsEv, .setresgidEv, .setresuidEv,
    .chdirEv, .setpgidEv, .migrateProcIn, .sendCanStart true,
    .recvCanStart true, .setupStdFds, .sendChildReady, .recvChildReady,
    .closeFdsFrom3, .clearenvEv, .setenvEv, .execveEv]

/-- Position of an event in the concrete schedule. -/
def schedPos (e : SpawnEvent) : Nat := protocolSchedule.indexOf e

/-! ## Environment construction (JobManager.cpp) -/

/-- `std::unordered_map<std::string, std::string>::emplace`: inserts the
pair only when the key is absent; an existing binding is never
overwritten. -/
def emplaceEnv (m : List (String × String)) (k v : String) :
    List (String × String) :=
  if m.any fun p => p.1 == k then m else m ++ [(k, v)]

/-- Value bound to a key in an environment map. -/
def lookupEnv (m : List (String × String)) (k : String) : Option String :=
  (m.find? fun p => p.1 == k).map fun p => p.2

/-- The fields of TaskInstance consulted by GetTaskEnvMap.  The node and
exclude lists enter already joined with ";" as the source joins them. -/
structure TaskEnvInput where
  env : List (String × String)
  getUserEnv : Bool
  pwdHomeDir : String
  pwdShell : String
  allocatedNodes : String
  excludes : String
  name : String
  account : String
  partition : String
  qos : String
  taskId : Nat
  isCrun : Bool
  termEnv : String
  timeLimitSec : Nat

/-- Zero-padded two-digit field of `fmt::format("{:0>2}", n)`. -/
def pad2 (n : Nat) : String :=
  if n < 10 then "0" ++ toString n else toString n

/-- The `HH:MM:SS` string GetTaskEnvMap computes from
`task.time_limit().seconds()`. -/
def formatTimeLimit (t : Nat) : String :=
  pad2 (t / 3600) ++ ":" ++ pad2 (t % 3600 / 60) ++ ":" ++ pad2 (t % 60)

/-- TaskInstance::GetTaskEnvMap: starts from the task's own environment,
then emplaces — in source order — HOME and SHELL when get_user_env is
set, the cluster identity variables, TERM for Crun with a non-empty
terminal env, and CRANE_TIMELIMIT.  Every insertion uses emplace, so a
key already present keeps its earlier value. -/
def getTaskEnvMap (i : TaskEnvInput) : List (String × String) :=
  let m := i.env.foldl (fun m p => emplaceEnv m p.1 p.2) []
  let m :=
    if i.getUserEnv then
      emplaceEnv (emplaceEnv m "HOME" i.pwdHomeDir) "SHELL" i.pwdShell
    else m
  let m := emplaceEnv m "CRANE_JOB_NODELIST" i.allocatedNodes
  let m := emplaceEnv m "CRANE_EXCLUDES" i.excludes
  let m := emplaceEnv m "CRANE_JOB_NAME" i.name
  let m := emplaceEnv m "CRANE_ACCOUNT" i.account
  let m := emplaceEnv m "CRANE_PARTITION" i.partition
  let m := emplaceEnv m "CRANE_QOS" i.qos
  let m := emplaceEnv m "CRANE_JOB_ID" (toString i.taskId)
  let m :=
    if i.isCrun && !(i.termEnv == "") then emplaceEnv m "TERM" i.termEnv
    else m
  emplaceEnv m "CRANE_TIMELIMIT" (formatTimeLimit i.timeLimitSec)

/-- `setenv(name, value, 1)`: overwrites an existing binding, else adds
one. -/
def setenvVar (m : List (String × String)) (k v : String) :
    List (String × String) :=
  if m.any fun p => p.1 == k then
    m.map fun p => if p.1 == k then (k, v) else p
  else m ++ [(k, v)]

/-- FuncSetEnv in SpawnProcessInInstance_: `setenv` for every entry of a
map. -/
def setenvAll (m : List (String × String)) (vs : List (String × String)) :
    List (String × String) :=
  vs.foldl (fun m p => setenvVar m p.1 p.2) m

/-- Environment installation in the child branch of
SpawnProcessInInstance_: `clearenv()`, then `FuncSetEnv(task_env_map)`,
then `FuncSetEnv(res_env_map)`. -/
def childFinalEnv (i : TaskEnvInput) (resEnv : List (String × String)) :
    List (String × String) :=
  setenvAll (setenvAll [] (getTaskEnvMap i)) resEnv

end Crane

namespace Crane

/-- C1: evaluation of both recovery scans on a root holding the
directories Crane_Task_5 and Crane_Task_7 with surviving set {5}.  The
legacy scan removes exactly the stale Crane_Task_7, as the spec states;
the unified scan removes exactly Crane_Task_5 — the directory of the
surviving job — because its filter is inverted
(`if (!job_ids.contains(job_id)) continue;` followed by removal). -/
theorem rmCgroupsV2_removes_surviving_job :
    rmCgroupsV2Except [5] ["Crane_Task_5".data, "Crane_Task_7".data] =
      ["Crane_Task_5".data] ∧
    rmJobCgroupsUnderControllerExcept [5]
      ["Crane_Task_5".data, "Crane_Task_7".data] = ["Crane_Task_7".data] := by
  decide

/-- C6 counterexample: at core count 201/131072 (exactly representable
as a double, with 65536 · cores = 100.5 computed exactly), the unified
variant writes quota 100 while round(65536 · cores) = 101, so the claim
that both variants write round(65536 · cores) is false. -/
theorem cpu_quota_v2_truncates_counterexample :
    cgroupV2CpuQuota (201 / 131072) ≠ round ((65536 : ℚ) * (201 / 131072)) ∧
    cgroupV2CpuQuota (201 / 131072) = 100 ∧
    cgroupV1CpuQuota (201 / 131072) = 101 := by
  norm_num [cgroupV2CpuQuota, cgroupV1CpuQuota, round_eq]

/-- C6 amended: the legacy quota is round(65536 · cores) with period
65536; the unified quota is the truncation ⌊65536 · cores⌋, which is at
most the rounded value, differs from it by at most one, and agrees with
it whenever 65536 · cores is an integer; the unified variant writes the
string "quota period" to cpu.max. -/
theorem cpu_quota_amended (q : ℚ) :
    cgroupV1CpuQuota q = round ((65536 : ℚ) * q) ∧
    cpuPeriod = 65536 ∧
    cgroupV2CpuQuota q ≤ cgroupV1CpuQuota q ∧
    cgroupV1CpuQuota q ≤ cgroupV2CpuQuota q + 1 ∧
    (((65536 : ℚ) * q).den = 1 → cgroupV2CpuQuota q = cgroupV1CpuQuota q) ∧
    cgroupV2CpuMax q = toString (cgroupV2CpuQuota q) ++ " " ++
      toString cpuPeriod := by
  refine ⟨rfl, rfl, ?_, ?_, ?_, rfl⟩
  · rw [cgroupV2CpuQuota, cgroupV1CpuQuota, round_eq]
    exact Int.floor_le_floor (by linarith)
  · rw [cgroupV2CpuQuota, cgroupV1CpuQuota, round_eq]
    calc ⌊(65536 : ℚ) * q + 1 / 2⌋ ≤ ⌊(65536 : ℚ) * q + 1⌋ :=
          Int.floor_le_floor (by linarith)
    _ = ⌊(65536 : ℚ) * q⌋ + 1 := by
          rw [show ((1 : ℚ)) = ((1 : ℤ) : ℚ) by norm_num,
            Int.floor_add_int]
  · intro hden
    have hint : ((((65536 : ℚ) * q).num : ℚ)) = (65536 : ℚ) * q :=
      Rat.den_eq_one_iff _ |>.mp hden
    rw [cgroupV2CpuQuota, cgroupV1CpuQuota, ← hint, round_intCast,
      Int.floor_intCast]

/-- C6 amended, witness: at core count 1/2 the product 65536 · cores is
the integer 32768, and the truncated and rounded quotas agree. -/
theorem cpu_quota_amended_witness :
    cgroupV2CpuQuota (1 / 2) = cgroupV1CpuQuota (1 / 2) :=
  (cpu_quota_amended (1 / 2)).2.2.2.2.1 (by norm_num)

/-- C9: stdout/stderr path resolution for batch jobs.  An empty pattern
yields `<cwd>/Crane-<id>.out`; a relative pattern is prefixed with the
working directory; a pattern ending in '/' (relative or absolute) gets
`Crane-<id>.out` appended; an absolute pattern not ending in '/' is used
as is; and an empty stderr pattern leaves the parsed stderr pattern
empty, which makes the child merge fd 2 into the stdout file. -/
theorem parse_file_path_pattern_spec (pattern cwd : List Char)
    (taskId : Nat) :
    (pattern = [] →
      parseFilePathPattern pattern cwd taskId =
        cwd ++ '/' :: craneOutName taskId) ∧
    (pattern ≠ [] → pattern.head? ≠ some '/' →
      pattern.getLast? ≠ some '/' →
      parseFilePathPattern pattern cwd taskId = cwd ++ '/' :: pattern) ∧
    (pattern ≠ [] → pattern.head? ≠ some '/' →
      pattern.getLast? = some '/' →
      parseFilePathPattern pattern cwd taskId =
        cwd ++ '/' :: (pattern ++ craneOutName taskId)) ∧
    (pattern.head? = some '/' → pattern.getLast? ≠ some '/' →
      parseFilePathPattern pattern cwd taskId = pattern) ∧
    (pattern.head? = some '/' → pattern.getLast? = some '/' →
      parseFilePathPattern pattern cwd taskId =
        pattern ++ craneOutName taskId) ∧
    batchStderrSink (parsedErrorFilePattern [] cwd taskId) =
      StderrSink.mergedIntoStdout := by
  refine ⟨?_, ?_, ?_, ?_, ?_, rfl⟩
  · intro h
    subst h
    have hlast : (cwd ++ ['/']).getLast? = some '/' :=
      List.getLast?_append_of_ne_nil cwd (by simp)
    simp [parseFilePathPattern, hlast]
  · intro hne hhead hlast
    have h1 : (cwd ++ '/' :: pattern).getLast? = pattern.getLast? := by
      rw [show cwd ++ '/' :: pattern = (cwd ++ ['/']) ++ pattern by simp]
      exact List.getLast?_append_of_ne_nil _ hne
    simp [parseFilePathPattern, hne, hhead, h1, hlast]
  · intro hne hhead hlast
    have h1 : (cwd ++ '/' :: pattern).getLast? = pattern.getLast? := by
      rw [show cwd ++ '/' :: pattern = (cwd ++ ['/']) ++ pattern by simp]
      exact List.getLast?_append_of_ne_nil _ hne
    have hne' : pattern ≠ [] := hne
    simp [parseFilePathPattern, hne', hhead, h1, hlast]
  · intro hhead hlast
    have hne : pattern ≠ [] := by
      intro h; subst h; simp at hhead
    simp [parseFilePathPattern, hne, hhead, hlast]
  · intro hhead hlast
    have hne : pattern ≠ [] := by
      intro h; subst h; simp at hhead
    simp [parseFilePathPattern, hne, hhead, hlast]

/-- C9 witness: the relative pattern "out/" with working directory
"/home" and job id 42 resolves to "/home/out/Crane-42.out". -/
theorem parse_file_path_pattern_spec_witness :
    parseFilePathPattern "out/".data "/home".data 42 =
      "/home".data ++ '/' :: ("out/".data ++ craneOutName 42) :=
  (parse_file_path_pattern_spec "out/".data "/home".data 42).2.2.1
    (by decide) (by decide) (by decide)

/-- C3: the signal-handling loop of JobManager (EvSigchldCb_) reaps a
child that exited with code 0 and enqueues no status change at all,
while the spec's reaping contract produces a Completed status change for
the child's job. -/
theorem sigchld_reap_produces_no_status_change :
    evSigchldStatusChanges [⟨1234, .exited 0⟩] = [] ∧
    specReaperStatusChange (fun _ => 9) ⟨1234, .exited 0⟩ =
      ⟨9, .Completed, 0⟩ := by
  exact ⟨rfl, rfl⟩

/-- C10: DedicatedResourceAllocator::Allocate returns true regardless of
the SetDeviceAccess outcome, and therefore a device-filter failure alone
never makes AllocateAndGetJobCgroup return null: the result is null
exactly when the allocatable-resource step failed. -/
theorem dedicated_alloc_never_fails (a d : Bool) :
    dedicatedResourceAllocate d = true ∧
    allocateAndGetJobCgroupResult a d =
      (if a then some () else none) := by
  cases a <;> cases d <;> simp [dedicatedResourceAllocate,
    allocateAndGetJobCgroupResult]

end Crane

namespace Crane

/-- C7: after a successful fork, every parent-side failure path of
SpawnProcessInInstance_ returns kOk, so LaunchTaskInstanceMt_
synthesizes no Failed status change; when some step failed, the error is
recorded in err_before_exec and the child was SIGKILLed or asked to
abort, leaving the single terminal status change to the reaper. -/
theorem post_fork_failure_returns_ok (o : ParentStepOutcomes) :
    (spawnParentAfterFork o).ret = CraneErr.kOk ∧
    launchSynthesizedStatus (spawnParentAfterFork o).ret = none ∧
    (o.migrateOk = false ∨ (o.serializeOk && o.flushOk) = false ∨
        o.readReadyOk = false →
      (spawnParentAfterFork o).errBeforeExec ≠ CraneErr.kOk ∧
      ((spawnParentAfterFork o).sigkillSent = true ∨
        (spawnParentAfterFork o).askedChildToAbort = true)) := by
  obtain ⟨m, s, f, r, w⟩ := o
  cases m <;> cases s <;> cases f <;> cases r <;> cases w <;>
    simp [spawnParentAfterFork, launchSynthesizedStatus]

/-- C7 witness: a cgroup-migration failure with all writes succeeding
records kCgroupError and asks the child to abort, while the call itself
reports kOk. -/
theorem post_fork_failure_returns_ok_witness :
    (spawnParentAfterFork ⟨false, true, true, true, true⟩).errBeforeExec ≠
      CraneErr.kOk ∧
    ((spawnParentAfterFork ⟨false, true, true, true, true⟩).sigkillSent =
        true ∨
      (spawnParentAfterFork ⟨false, true, true, true, true⟩).askedChildToAbort
        = true) :=
  (post_fork_failure_returns_ok ⟨false, true, true, true, true⟩).2.2
    (Or.inl rfl)

/-- C8 counterexample: in the Forwarding state an unexpected frame (here
a stray REGISTER_ACK) is ignored and the state is unchanged, but no new
stream read is issued — contradicting the claim that the next read is
re-issued so forwarding continues. -/
theorem forwarding_unknown_frame_counterexample :
    (onReadEvent .Forwarding .registerAck).state = IoState.Forwarding ∧
    (onReadEvent .Forwarding .registerAck).inputsWritten = false ∧
    (onReadEvent .Forwarding .registerAck).readReissued = false := by
  decide

/-- C8 amended: an unexpected frame leaves the state unchanged and
writes nothing to the children in both states, but only the
Unregistering state re-issues the next stream read; in Forwarding the
unexpected frame leaves no read outstanding. -/
theorem unknown_frame_handling_amended (t : ReplyType) :
    (t ≠ ReplyType.taskInput →
      onReadEvent .Forwarding t =
        { state := .Forwarding, readReissued := false,
          inputsWritten := false }) ∧
    (t ≠ ReplyType.unregisterReply →
      onReadEvent .Unregistering t =
        { state := .Unregistering, readReissued := true,
          inputsWritten := false }) := by
  constructor <;> intro h <;> cases t <;>
    first
    | exact absurd rfl h
    | decide

/-- C8 amended, witness: a stray REGISTER_ACK frame in both states. -/
theorem unknown_frame_handling_amended_witness :
    onReadEvent .Forwarding .registerAck =
      { state := .Forwarding, readReissued := false,
        inputsWritten := false } ∧
    onReadEvent .Unregistering .registerAck =
      { state := .Unregistering, readReissued := true,
        inputsWritten := false } :=
  ⟨(unknown_frame_handling_amended ReplyType.registerAck).1 (by decide),
    (unknown_frame_handling_amended ReplyType.registerAck).2 (by decide)⟩

end Crane

namespace Crane

/-- C4 counterexample: in the child branch the credential transition
comes first — setgroups occurs strictly before the read of the CanStart
message — refuting the claim that the child performs it only after it
has read that message and seen ok=true. -/
theorem child_creds_before_canstart_counterexample :
    SpawnEvent.setgroupsEv ∈ childTrace true ∧
    SpawnEvent.recvCanStart true ∈ childTrace true ∧
    (childTrace true).indexOf SpawnEvent.setgroupsEv <
      (childTrace true).indexOf (SpawnEvent.recvCanStart true) := by
  decide

/-- C4 amended: the parent sends CanStart with ok=true only after the
child pid has been attached to the job's RCG; the child performs its
credential and session transition before reading CanStart, blocks on
that read, aborts on ok=false, and execs only afterwards — so in every
interleaving that respects both program orders and delivers the CanStart
message after its send, the RCG attachment precedes exec. -/
theorem spawn_protocol_amended :
    (∀ mOk : Bool, SpawnEvent.sendCanStart true ∈ parentTrace mOk →
      mOk = true ∧
      (parentTrace mOk).indexOf SpawnEvent.migrateProcIn <
        (parentTrace mOk).indexOf (SpawnEvent.sendCanStart true)) ∧
    (SpawnEvent.execveEv ∉ childTrace false ∧
      (childTrace false).getLast? = some SpawnEvent.abortEv ∧
      (childTrace true).indexOf (SpawnEvent.recvCanStart true) <
        (childTrace true).indexOf SpawnEvent.execveEv) ∧
    (∀ f : SpawnEvent → Nat,
      List.Chain' (fun a b => f a < f b) (parentTrace true) →
      List.Chain' (fun a b => f a < f b) (childTrace true) →
      f (SpawnEvent.sendCanStart true) < f (SpawnEvent.recvCanStart true) →
      f SpawnEvent.migrateProcIn < f SpawnEvent.execveEv) := by
  refine ⟨?_, by decide, ?_⟩
  · intro mOk hmem
    cases mOk
    · exact absurd hmem (by decide)
    · exact ⟨rfl, by decide⟩
  · intro f hp hc hsr
    simp only [parentTrace, childTrace, if_true, List.cons_append,
      List.nil_append, List.chain'_cons, List.chain'_singleton,
      and_true] at hp hc
    omega

/-- C4 amended, witness: the concrete schedule respects both program
orders and the message causality, and indeed places the RCG attachment
before exec; the parent-side ordering holds on the success trace. -/
theorem spawn_protocol_amended_witness :
    schedPos SpawnEvent.migrateProcIn < schedPos SpawnEvent.execveEv ∧
    (parentTrace true).indexOf SpawnEvent.migrateProcIn <
      (parentTrace true).indexOf (SpawnEvent.sendCanStart true) :=
  ⟨spawn_protocol_amended.2.2 schedPos
      (by
        simp only [parentTrace, if_true, List.chain'_cons,
          List.chain'_singleton, and_true]
        decide)
      (by
        simp only [childTrace, if_true, List.cons_append, List.nil_append,
          List.chain'_cons, List.chain'_singleton, and_true]
        decide)
      (by decide),
    (spawn_protocol_amended.1 true (by decide)).2⟩

end Crane

namespace Crane

/-- A key is absent from an environment map exactly when no entry passes
the emplace presence test. -/
theorem lookupEnv_eq_none_iff_any (m : List (String × String)) (k : String) :
    lookupEnv m k = none ↔ (m.any fun p => p.1 == k) = false := by
  simp [lookupEnv, List.find?_eq_none, List.any_eq_false]

/-- emplace preserves any existing binding. -/
theorem lookupEnv_emplace_of_some (m : List (String × String))
    (k kk v vv : String) (h : lookupEnv m k = some v) :
    lookupEnv (emplaceEnv m kk vv) k = some v := by
  unfold emplaceEnv
  split
  · exact h
  · unfold lookupEnv at h ⊢
    rw [List.find?_append]
    cases hf : List.find? (fun p => p.1 == k) m with
    | none => rw [hf] at h; simp at h
    | some q => rw [hf] at h; simpa using h

/-- emplace of a different key does not change a lookup. -/
theorem lookupEnv_emplace_of_ne (m : List (String × String))
    (k kk vv : String) (h : k ≠ kk) :
    lookupEnv (emplaceEnv m kk vv) k = lookupEnv m k := by
  unfold emplaceEnv
  split
  · rfl
  · have hkk : (kk == k) = false := by
      simpa [beq_eq_false_iff_ne] using (Ne.symm h)
    unfold lookupEnv
    rw [List.find?_append]
    cases hf : List.find? (fun p => p.1 == k) m with
    | none => simp [hf, List.find?_cons, hkk]
    | some q => simp [hf]

/-- Folding emplace over a list keeps existing bindings of the
accumulator and otherwise yields the first occurrence in the list. -/
theorem lookupEnv_foldl_emplace (k : String) :
    ∀ (env acc : List (String × String)),
      lookupEnv (env.foldl (fun m p => emplaceEnv m p.1 p.2) acc) k =
        (lookupEnv acc k <|> lookupEnv env k) := by
  intro env
  induction env with
  | nil =>
      intro acc
      have h0 : lookupEnv ([] : List (String × String)) k = none := rfl
      rw [List.foldl_nil, h0]
      cases h : lookupEnv acc k <;> simp
  | cons p rest ih =>
      intro acc
      rw [List.foldl_cons, ih]
      by_cases hk : k = p.1
      · cases h : lookupEnv acc k with
        | some v =>
            have hany : (acc.any fun q => q.1 == p.1) = true := by
              rw [← hk, ← Bool.not_eq_false, ← lookupEnv_eq_none_iff_any, h]
              simp
            have hm : emplaceEnv acc p.1 p.2 = acc := by
              simp [emplaceEnv, hany]
            rw [hm, h]
            simp
        | none =>
            have hany : (acc.any fun q => q.1 == k) = false :=
              (lookupEnv_eq_none_iff_any acc k).mp h
            have hany2 : (acc.any fun q => q.1 == p.1) = false := by
              rw [← hk]
              exact hany
            have hm : emplaceEnv acc p.1 p.2 = acc ++ [(p.1, p.2)] := by
              simp [emplaceEnv, hany2]
            have hf : List.find? (fun q => q.1 == k) acc = none := by
              have h2 := h
              unfold lookupEnv at h2
              simpa using h2
            have hbeq : (p.1 == k) = true := by
              rw [hk]
              simp
            rw [hm]
            unfold lookupEnv
            rw [List.find?_append, hf]
            simp [List.find?_cons, hbeq]
      · rw [lookupEnv_emplace_of_ne acc k p.1 p.2 hk]
        have hp : (p.1 == k) = false := by
          simpa [beq_eq_false_iff_ne] using (Ne.symm hk)
        have hcons : lookupEnv (p :: rest) k = lookupEnv rest k := by
          unfold lookupEnv
          rw [List.find?_cons_of_neg]
          simp [hp]
        rw [hcons]

end Crane

namespace Crane

/-- emplace keeps the keys of an environment map duplicate-free. -/
theorem nodupKeys_emplace (m : List (String × String)) (k v : String)
    (h : (m.map Prod.fst).Nodup) :
    ((emplaceEnv m k v).map Prod.fst).Nodup := by
  unfold emplaceEnv
  split
  · exact h
  · rename_i hany
    rw [Bool.not_eq_true] at hany
    have hk : ∀ a ∈ m.map Prod.fst, a ≠ k := by
      intro a ha hEq
      obtain ⟨p, hp, hfst⟩ := List.mem_map.mp ha
      have htrue : (m.any fun p => p.1 == k) = true :=
        List.any_eq_true.mpr ⟨p, hp, by simp [hfst, hEq]⟩
      rw [htrue] at hany
      cases hany
    rw [List.map_append]
    refine List.Nodup.append h (List.nodup_singleton k) ?_
    intro a h1 h2
    simp only [List.map_cons, List.map_nil, List.mem_singleton] at h2
    exact hk a h1 h2

/-- Folding emplace preserves duplicate-free keys. -/
theorem nodupKeys_foldl_emplace (env : List (String × String)) :
    ∀ acc : List (String × String), (acc.map Prod.fst).Nodup →
      ((env.foldl (fun m p => emplaceEnv m p.1 p.2) acc).map Prod.fst).Nodup := by
  induction env with
  | nil => intro acc h; exact h
  | cons p rest ih => intro acc h; exact ih _ (nodupKeys_emplace _ _ _ h)

set_option maxHeartbeats 1000000 in
/-- The map GetTaskEnvMap builds has duplicate-free keys. -/
theorem nodupKeys_getTaskEnvMap (i : TaskEnvInput) :
    ((getTaskEnvMap i).map Prod.fst).Nodup := by
  have hbase : ∀ env : List (String × String),
      ((env.foldl (fun m p => emplaceEnv m p.1 p.2) []).map Prod.fst).Nodup :=
    fun env => nodupKeys_foldl_emplace env [] (by simp)
  unfold getTaskEnvMap
  apply nodupKeys_emplace
  split
  all_goals repeat apply nodupKeys_emplace
  all_goals split
  all_goals
    first
    | exact nodupKeys_emplace _ _ _ (nodupKeys_emplace _ _ _ (hbase _))
    | exact hbase _

/-- setenv binds its key to its value. -/
theorem lookupEnv_setenvVar_self (m : List (String × String))
    (k v : String) : lookupEnv (setenvVar m k v) k = some v := by
  unfold setenvVar
  split
  · rename_i hany
    revert hany
    induction m with
    | nil =>
        intro hany
        simp at hany
    | cons p rest ih =>
        intro hany
        cases hpk : (p.1 == k) with
        | true =>
            rw [List.map_cons, if_pos hpk]
            unfold lookupEnv
            rw [List.find?_cons_of_pos _ (by simp)]
            rfl
        | false =>
            have hrest : (rest.any fun p => p.1 == k) = true := by
              simpa [List.any_cons, hpk] using hany
            rw [List.map_cons, if_neg (by simp [hpk])]
            unfold lookupEnv
            rw [List.find?_cons_of_neg _ (by simp [hpk])]
            exact ih hrest
  · unfold lookupEnv
    rw [List.find?_append]
    rename_i hany
    rw [Bool.not_eq_true] at hany
    have hf : List.find? (fun p => p.1 == k) m = none := by
      have := (lookupEnv_eq_none_iff_any m k).mpr hany
      unfold lookupEnv at this
      simpa using this
    rw [hf]
    simp [List.find?_cons]

/-- setenv of a different key does not change a lookup. -/
theorem lookupEnv_setenvVar_ne (m : List (String × String))
    (k kk vv : String) (h : k ≠ kk) :
    lookupEnv (setenvVar m kk vv) k = lookupEnv m k := by
  have hkkk : (kk == k) = false := by
    simpa [beq_eq_false_iff_ne] using (Ne.symm h)
  unfold setenvVar
  split
  · rename_i hany
    clear hany
    induction m with
    | nil => simp
    | cons p rest ih =>
        cases hpk : (p.1 == kk) with
        | true =>
            have hpk2 : (p.1 == k) = false := by
              have hp1 : p.1 = kk := eq_of_beq hpk
              simpa [beq_eq_false_iff_ne, hp1] using (Ne.symm h)
            rw [List.map_cons, if_pos hpk]
            unfold lookupEnv
            rw [List.find?_cons_of_neg _ (by simp [hkkk]),
              List.find?_cons_of_neg _ (by simp [hpk2])]
            exact ih
        | false =>
            rw [List.map_cons, if_neg (by simp [hpk])]
            cases hpk2 : (p.1 == k) with
            | true =>
                unfold lookupEnv
                rw [List.find?_cons_of_pos _ (by simp [hpk2]),
                  List.find?_cons_of_pos _ (by simp [hpk2])]
            | false =>
                unfold lookupEnv
                rw [List.find?_cons_of_neg _ (by simp [hpk2]),
                  List.find?_cons_of_neg _ (by simp [hpk2])]
                exact ih
  · unfold lookupEnv
    rw [List.find?_append]
    cases hf : List.find? (fun p => p.1 == k) m with
    | none => simp [hf, List.find?_cons, hkkk]
    | some q => simp [hf]

/-- FuncSetEnv leaves keys alone that the map does not mention. -/
theorem lookupEnv_setenvAll_of_none (k : String) :
    ∀ (vs m : List (String × String)), lookupEnv vs k = none →
      lookupEnv (setenvAll m vs) k = lookupEnv m k := by
  intro vs
  induction vs with
  | nil => intro m _; rfl
  | cons p rest ih =>
      intro m h
      have hp : (p.1 == k) = false := by
        cases hq : (p.1 == k) with
        | false => rfl
        | true =>
            unfold lookupEnv at h
            rw [List.find?_cons_of_pos _ (by simp [hq])] at h
            simp at h
      have hrest : lookupEnv rest k = none := by
        unfold lookupEnv at h ⊢
        rwa [List.find?_cons_of_neg _ (by simp [hp])] at h
      have hne : k ≠ p.1 := by
        intro hEq
        rw [hEq] at hp
        simp at hp
      calc lookupEnv (setenvAll m (p :: rest)) k
          = lookupEnv (setenvAll (setenvVar m p.1 p.2) rest) k := rfl
      _ = lookupEnv (setenvVar m p.1 p.2) k := ih _ hrest
      _ = lookupEnv m k := lookupEnv_setenvVar_ne m k p.1 p.2 hne

/-- FuncSetEnv installs every binding of a duplicate-free map. -/
theorem lookupEnv_setenvAll_of_nodup (k : String) :
    ∀ (vs m : List (String × String)) (v : String),
      ((vs.map Prod.fst).Nodup) → lookupEnv vs k = some v →
      lookupEnv (setenvAll m vs) k = some v := by
  intro vs
  induction vs with
  | nil => intro m v _ h; simp [lookupEnv] at h
  | cons p rest ih =>
      intro m v hn h
      have hn2 : p.1 ∉ rest.map Prod.fst ∧ (rest.map Prod.fst).Nodup := by
        rw [List.map_cons] at hn
        exact List.nodup_cons.mp hn
      cases hq : (p.1 == k) with
      | false =>
          have hrest : lookupEnv rest k = some v := by
            unfold lookupEnv at h ⊢
            rwa [List.find?_cons_of_neg _ (by simp [hq])] at h
          exact ih _ v hn2.2 hrest
      | true =>
          have hkp : p.1 = k := eq_of_beq hq
          have hv : v = p.2 := by
            unfold lookupEnv at h
            rw [List.find?_cons_of_pos _ (by simp [hq])] at h
            simp at h
            exact h.symm
          have hnotin : lookupEnv rest k = none := by
            rw [lookupEnv_eq_none_iff_any]
            cases hc : (rest.any fun q => q.1 == k) with
            | false => rfl
            | true =>
                obtain ⟨q, hqmem, hqk⟩ := List.any_eq_true.mp hc
                have hq1 : q.1 = k := eq_of_beq hqk
                have hmem : p.1 ∈ rest.map Prod.fst := by
                  rw [hkp, ← hq1]
                  exact List.mem_map.mpr ⟨q, hqmem, rfl⟩
                exact absurd hmem hn2.1
          calc lookupEnv (setenvAll m (p :: rest)) k
              = lookupEnv (setenvAll (setenvVar m p.1 p.2) rest) k := rfl
          _ = lookupEnv (setenvVar m p.1 p.2) k :=
              lookupEnv_setenvAll_of_none k rest _ hnotin
          _ = some v := by
              rw [hkp, lookupEnv_setenvVar_self, hv]

/-- FuncSetEnv applied to the empty environment reproduces exactly the
lookups of a duplicate-free map. -/
theorem lookupEnv_setenvAll_nil (vs : List (String × String)) (k : String)
    (hn : (vs.map Prod.fst).Nodup) :
    lookupEnv (setenvAll [] vs) k = lookupEnv vs k := by
  cases h : lookupEnv vs k with
  | none => rw [lookupEnv_setenvAll_of_none k vs [] h]; rfl
  | some v => exact lookupEnv_setenvAll_of_nodup k vs [] v hn h

end Crane

namespace Crane

/-- C5 counterexample: a job whose spec environment already binds
CRANE_JOB_ID (here to "x") keeps that value in the child's final
environment for job id 1, because GetTaskEnvMap inserts every later
group with emplace (insert-if-absent); the claim's later-overrides-
earlier rule would require the cluster identity value "1". -/
theorem env_merge_counterexample :
    lookupEnv
      (childFinalEnv
        { env := [("CRANE_JOB_ID", "x")], getUserEnv := false,
          pwdHomeDir := "", pwdShell := "", allocatedNodes := "",
          excludes := "", name := "", account := "", partition := "",
          qos := "", taskId := 1, isCrun := false, termEnv := "",
          timeLimitSec := 0 } [])
      "CRANE_JOB_ID" = some "x" ∧ ("x" : String) ≠ "1" := by
  constructor
  · rfl
  · decide

/-- C5 amended: inside GetTaskEnvMap the merge is first-wins — a
variable bound by the job environment from the spec keeps its value
against every later group, since each later group is inserted with
emplace; only the resource-derived variables, applied afterwards in the
child via setenv(·,·,1), override the merged map, and a variable they do
not mention keeps its GetTaskEnvMap value. -/
theorem env_merge_amended (i : TaskEnvInput)
    (resEnv : List (String × String)) (k : String) :
    (∀ v, lookupEnv i.env k = some v →
      lookupEnv (getTaskEnvMap i) k = some v) ∧
    (lookupEnv resEnv k = none →
      lookupEnv (childFinalEnv i resEnv) k =
        lookupEnv (getTaskEnvMap i) k) ∧
    ((resEnv.map Prod.fst).Nodup → ∀ v, lookupEnv resEnv k = some v →
      lookupEnv (childFinalEnv i resEnv) k = some v) := by
  refine ⟨?_, ?_, ?_⟩
  · intro v h
    have h0 : lookupEnv
        (i.env.foldl (fun m p => emplaceEnv m p.1 p.2) []) k = some v := by
      rw [lookupEnv_foldl_emplace]
      have h1 : lookupEnv ([] : List (String × String)) k = none := rfl
      rw [h1, h]
      rfl
    unfold getTaskEnvMap
    apply lookupEnv_emplace_of_some
    split
    all_goals
      repeat
        first
        | apply lookupEnv_emplace_of_some
        | split
    all_goals
      first
      | exact lookupEnv_emplace_of_some _ _ _ _ _
          (lookupEnv_emplace_of_some _ _ _ _ _ h0)
      | exact h0
  · intro h
    unfold childFinalEnv
    rw [lookupEnv_setenvAll_of_none k resEnv _ h]
    exact lookupEnv_setenvAll_nil _ k (nodupKeys_getTaskEnvMap i)
  · intro hn v h
    unfold childFinalEnv
    exact lookupEnv_setenvAll_of_nodup k resEnv _ v hn h

/-- C5 amended, witness: the spec-env binding of "A" survives the merge,
and a resource-derived variable "B" lands in the final child
environment. -/
theorem env_merge_amended_witness :
    lookupEnv
      (getTaskEnvMap
        { env := [("A", "1")], getUserEnv := false, pwdHomeDir := "",
          pwdShell := "", allocatedNodes := "", excludes := "",
          name := "", account := "", partition := "", qos := "",
          taskId := 7, isCrun := false, termEnv := "",
          timeLimitSec := 0 }) "A" = some "1" ∧
    lookupEnv
      (childFinalEnv
        { env := [("A", "1")], getUserEnv := false, pwdHomeDir := "",
          pwdShell := "", allocatedNodes := "", excludes := "",
          name := "", account := "", partition := "", qos := "",
          taskId := 7, isCrun := false, termEnv := "",
          timeLimitSec := 0 } [("B", "2")]) "B" = some "2" :=
  ⟨(env_merge_amended _ [("B", "2")] "A").1 "1" rfl,
    (env_merge_amended _ [("B", "2")] "B").2.2 (by simp) "2" rfl⟩

end Crane

namespace Crane

/-- Erasing a job id removes its task-map entry. -/
theorem lookupTask_erase_self (m : List (Nat × Bool)) (id : Nat) :
    lookupTask (eraseTask m id) id = none := by
  induction m with
  | nil => rfl
  | cons p rest ih =>
      cases hp : (p.1 == id) with
      | true =>
          have hL : eraseTask (p :: rest) id = eraseTask rest id := by
            simp [eraseTask, List.filter_cons, hp]
          rw [hL]
          exact ih
      | false =>
          have hL : eraseTask (p :: rest) id = p :: eraseTask rest id := by
            simp [eraseTask, List.filter_cons, hp]
          rw [hL]
          unfold lookupTask
          rw [List.find?_cons_of_neg _ (by simp [hp])]
          exact ih

/-- Erasing one job id leaves the entries of every other id alone. -/
theorem lookupTask_erase_ne (m : List (Nat × Bool)) (id idd : Nat)
    (h : id ≠ idd) : lookupTask (eraseTask m idd) id = lookupTask m id := by
  induction m with
  | nil => rfl
  | cons p rest ih =>
      cases hp : (p.1 == idd) with
      | true =>
          have hp1 : p.1 = idd := eq_of_beq hp
          have hpid : (p.1 == id) = false := by
            rw [hp1]
            simpa [beq_eq_false_iff_ne] using (Ne.symm h)
          have hL : eraseTask (p :: rest) idd = eraseTask rest idd := by
            simp [eraseTask, List.filter_cons, hp]
          have hR : lookupTask (p :: rest) id = lookupTask rest id := by
            unfold lookupTask
            rw [List.find?_cons_of_neg _ (by simp [hpid])]
          rw [hL, hR]
          exact ih
      | false =>
          have hL : eraseTask (p :: rest) idd = p :: eraseTask rest idd := by
            simp [eraseTask, List.filter_cons, hp]
          rw [hL]
          cases hpid : (p.1 == id) with
          | true =>
              unfold lookupTask
              rw [List.find?_cons_of_pos _ (by simp [hpid]),
                List.find?_cons_of_pos _ (by simp [hpid])]
          | false =>
              unfold lookupTask
              rw [List.find?_cons_of_neg _ (by simp [hpid]),
                List.find?_cons_of_neg _ (by simp [hpid])]
              exact ih

/-- A job id with no task-map entry is never delivered, never erased,
and stays absent while the queue is drained. -/
theorem processStatusChanges_absent (q : List StatusChangeElem) :
    ∀ (m : List (Nat × Bool)) (id : Nat), lookupTask m id = none →
      (processStatusChanges m q).delivered.countP
          (fun e => e.taskId == id) = 0 ∧
      (processStatusChanges m q).erased.count id = 0 ∧
      lookupTask (processStatusChanges m q).taskMap id = none := by
  induction q with
  | nil => intro m id h; exact ⟨rfl, rfl, h⟩
  | cons e rest ih =>
      intro m id h
      cases hl : lookupTask m e.taskId with
      | none =>
          have hstep : processStatusChanges m (e :: rest) =
              processStatusChanges m rest := by
            simp [processStatusChanges, hl]
          rw [hstep]
          exact ih m id h
      | some o =>
          have hne : e.taskId ≠ id := by
            intro hEq
            rw [hEq, h] at hl
            cases hl
          have hbeq : (e.taskId == id) = false := by
            simpa [beq_eq_false_iff_ne] using hne
          have h2 : lookupTask (eraseTask m e.taskId) id = none := by
            rw [lookupTask_erase_ne _ _ _ (Ne.symm hne)]
            exact h
          obtain ⟨hd, he, hm⟩ := ih (eraseTask m e.taskId) id h2
          have hstep : processStatusChanges m (e :: rest) =
              { taskMap :=
                  (processStatusChanges (eraseTask m e.taskId) rest).taskMap,
                delivered :=
                  if o then
                    (processStatusChanges (eraseTask m e.taskId)
                      rest).delivered
                  else
                    e :: (processStatusChanges (eraseTask m e.taskId)
                      rest).delivered,
                erased :=
                  e.taskId ::
                    (processStatusChanges (eraseTask m e.taskId)
                      rest).erased } := by
            simp [processStatusChanges, hl]
          rw [hstep]
          refine ⟨?_, ?_, hm⟩
          · cases o <;> simp [List.countP_cons, hd, hbeq]
          · simp [List.count_cons, he, hbeq]

end Crane

namespace Crane

/-- C2: draining the status-change queue forwards at most one status
change per job id to the controller client and erases the instance at
most once; for a job id present in the task map with some queued status
change, the instance is erased exactly once and disappears from the
map, the status change is forwarded exactly once when the orphaned flag
is clear, and it is swallowed (zero forwarded) when the flag is set. -/
theorem status_change_delivered_once (q : List StatusChangeElem) :
    ∀ (m : List (Nat × Bool)) (id : Nat),
      (processStatusChanges m q).delivered.countP
          (fun e => e.taskId == id) ≤ 1 ∧
      (processStatusChanges m q).erased.count id ≤ 1 ∧
      (lookupTask m id = some true →
        (processStatusChanges m q).delivered.countP
          (fun e => e.taskId == id) = 0) ∧
      (∀ o : Bool, lookupTask m id = some o →
        (∃ e ∈ q, e.taskId = id) →
        (processStatusChanges m q).erased.count id = 1 ∧
        lookupTask (processStatusChanges m q).taskMap id = none ∧
        (processStatusChanges m q).delivered.countP
            (fun e => e.taskId == id) = (if o then 0 else 1)) := by
  induction q with
  | nil =>
      intro m id
      refine ⟨by simp [processStatusChanges],
        by simp [processStatusChanges], fun _ => rfl, ?_⟩
      intro o _ hex
      obtain ⟨e, hmem, _⟩ := hex
      cases hmem
  | cons e rest ih =>
      intro m id
      cases hl : lookupTask m e.taskId with
      | none =>
          have hstep : processStatusChanges m (e :: rest) =
              processStatusChanges m rest := by
            simp [processStatusChanges, hl]
          rw [hstep]
          obtain ⟨c1, c2, c3, c4⟩ := ih m id
          refine ⟨c1, c2, c3, ?_⟩
          intro o ho hex
          obtain ⟨e2, hmem, heq2⟩ := hex
          rcases List.mem_cons.mp hmem with rfl | hmem2
          · rw [heq2, ho] at hl
            cases hl
          · exact c4 o ho ⟨e2, hmem2, heq2⟩
      | some o2 =>
          have hstep : processStatusChanges m (e :: rest) =
              { taskMap :=
                  (processStatusChanges (eraseTask m e.taskId) rest).taskMap,
                delivered :=
                  if o2 then
                    (processStatusChanges (eraseTask m e.taskId)
                      rest).delivered
                  else
                    e :: (processStatusChanges (eraseTask m e.taskId)
                      rest).delivered,
                erased :=
                  e.taskId ::
                    (processStatusChanges (eraseTask m e.taskId)
                      rest).erased } := by
            simp [processStatusChanges, hl]
          rw [hstep]
          by_cases heq : e.taskId = id
          · have hE : lookupTask (eraseTask m e.taskId) id = none := by
              rw [heq]
              exact lookupTask_erase_self m id
            obtain ⟨hd, he, hm⟩ :=
              processStatusChanges_absent rest (eraseTask m e.taskId) id hE
            have hbeq : (e.taskId == id) = true := by simp [heq]
            have hlid : lookupTask m id = some o2 := by
              rw [← heq]
              exact hl
            refine ⟨?_, ?_, ?_, ?_⟩
            · cases o2 <;> simp [List.countP_cons, hd, hbeq]
            · simp [List.count_cons, he, hbeq]
            · intro htrue
              have ho2 : o2 = true := by
                rw [hlid] at htrue
                exact Option.some.inj htrue
              rw [ho2]
              simpa using hd
            · intro o ho _
              have ho2 : o = o2 := by
                rw [hlid] at ho
                exact (Option.some.inj ho).symm
              refine ⟨by simp [List.count_cons, he, hbeq], hm, ?_⟩
              rw [ho2]
              cases o2 <;> simp [List.countP_cons, hd, hbeq]
          · have hE : lookupTask (eraseTask m e.taskId) id =
                lookupTask m id :=
              lookupTask_erase_ne m id e.taskId (Ne.symm heq)
            obtain ⟨c1, c2, c3, c4⟩ := ih (eraseTask m e.taskId) id
            have hbeq : (e.taskId == id) = false := by
              simpa [beq_eq_false_iff_ne] using heq
            refine ⟨?_, ?_, ?_, ?_⟩
            · cases o2 <;> simpa [List.countP_cons, hbeq] using c1
            · simpa [List.count_cons, hbeq] using c2
            · intro htrue
              have h3 := c3 (by rw [hE]; exact htrue)
              cases o2 <;> simpa [List.countP_cons, hbeq] using h3
            · intro o ho hex
              obtain ⟨e2, hmem, heq2⟩ := hex
              rcases List.mem_cons.mp hmem with rfl | hmem2
              · exact absurd heq2 heq
              · obtain ⟨r1, r2, r3⟩ :=
                  c4 o (by rw [hE]; exact ho) ⟨e2, hmem2, heq2⟩
                refine ⟨by simp [List.count_cons, hbeq, r1], r2, ?_⟩
                cases o2 <;> simpa [List.countP_cons, hbeq] using r3

/-- C2 witness: a single non-orphaned instance for job 5 with one queued
terminal status change is erased once, vanishes from the task map, and
is forwarded exactly once. -/
theorem status_change_delivered_once_witness :
    (processStatusChanges [(5, false)]
        [⟨5, TaskStatus.Completed, 0⟩]).erased.count 5 = 1 ∧
    lookupTask (processStatusChanges [(5, false)]
        [⟨5, TaskStatus.Completed, 0⟩]).taskMap 5 = none ∧
    (processStatusChanges [(5, false)]
        [⟨5, TaskStatus.Completed, 0⟩]).delivered.countP
        (fun e => e.taskId == 5) = (if false then 0 else 1) :=
  (status_change_delivered_once [⟨5, TaskStatus.Completed, 0⟩]
      [(5, false)] 5).2.2.2 false rfl
    ⟨⟨5, TaskStatus.Completed, 0⟩, by simp, rfl⟩

end Crane
